import Mathlib

/-!
Verification development for the build-monitor orchestration and analytics
engine (Python sources under `modules/` and `build_monitor_server.py`).

The Python code is shallowly embedded: every function under test is
translated into an executable Lean definition over exact rationals (`ℚ`
stands in for Python floats, so float rounding is idealized away),
`Option` models `None`, association lists model insertion-ordered dicts,
and Python strings are Lean `String`s manipulated through their character
lists (all scanning helpers are fuel-structural so that the kernel can
evaluate them).  File-system and clock inputs (`time.time()`, `os.walk`,
status-file contents, `psutil` readings) are passed to the embedded
functions as explicit arguments, which is the standard treatment of the
ambient IO these methods perform.
-/

/-- Python `l[-n:]`: the last `n` elements of a list. -/
def lastN (n : Nat) (l : List α) : List α := l.drop (l.length - n)

/-- The rolling-window trim used by every tracker:
`if len(w) > cap: w = w[-cap:]`. -/
def capWindow (cap : Nat) (l : List α) : List α :=
  if cap < l.length then lastN cap l else l

/-- Python `min(list)` on a nonempty list (junk value 0 on `[]`,
which the sources never hit). -/
def listMin : List ℚ → ℚ
  | [] => 0
  | [d] => d
  | d :: e :: ds => min d (listMin (e :: ds))

/-- Python `max(list)` on a nonempty list (junk value 0 on `[]`). -/
def listMax : List ℚ → ℚ
  | [] => 0
  | [d] => d
  | d :: e :: ds => max d (listMax (e :: ds))

/-- Python `d[k] = v` on an insertion-ordered dict modelled as an
association list: replace in place if the key exists, else append. -/
def dictInsert (l : List (String × α)) (k : String) (v : α) : List (String × α) :=
  if (l.lookup k).isSome then l.map (fun p => if p.1 = k then (k, v) else p)
  else l ++ [(k, v)]

/-- Python `int()` truncation toward zero of a rational. -/
def pyTrunc (q : ℚ) : ℤ := q.num.tdiv q.den

/-- Python `statistics.mean` / explicit `sum(xs)/len(xs)` averages. -/
def listMean (l : List ℚ) : ℚ := l.sum / l.length

/-- Code-point comparison of Python strings (strict `<`),
on character lists. -/
def strLtB : List Char → List Char → Bool
  | [], [] => false
  | [], _ :: _ => true
  | _ :: _, [] => false
  | a :: as, b :: bs =>
    if a.toNat < b.toNat then true
    else if b.toNat < a.toNat then false
    else strLtB as bs

/-- `a <= b` on Python strings, as the negation of `b < a`. -/
def strLeB (a b : List Char) : Bool := ! strLtB b a

/-- The `<=` relation `sorted()` orders by, as a `Prop` on `String`. -/
def str_le (s t : String) : Prop := strLeB s.data t.data = true

instance str_le_decidable : DecidableRel str_le :=
  fun s t => inferInstanceAs (Decidable (strLeB s.data t.data = true))

/-- Python `sorted(targets)`: a stable sort by code-point order. -/
def pySorted (l : List String) : List String := List.insertionSort str_le l

/-- Scanner for Python `str.replace` (nonempty pattern), fuel-structural:
fuel bounds the scan and is supplied as the length of the scanned list,
which always suffices because each step consumes at least one character. -/
def pyReplaceFuel (p : Char) (ps rep : List Char) : Nat → List Char → List Char
  | _, [] => []
  | 0, s => s
  | fuel + 1, c :: cs =>
    if (p :: ps).isPrefixOf (c :: cs) then
      rep ++ pyReplaceFuel p ps rep fuel (cs.drop ps.length)
    else c :: pyReplaceFuel p ps rep fuel cs

/-- Python `s.replace(pat, rep)` on character lists (the sources only
replace nonempty patterns; the empty pattern is returned unchanged). -/
def pyReplace (s pat rep : List Char) : List Char :=
  match pat with
  | [] => s
  | p :: ps => pyReplaceFuel p ps rep s.length s

/-- Python `pat in s` substring test. -/
def containsSub (pat : List Char) : List Char → Bool
  | [] => pat.isEmpty
  | c :: rest => pat.isPrefixOf (c :: rest) || containsSub pat rest

/-- Python `"sep".join(parts)` on strings. -/
def joinWith (sep : List Char) : List String → List Char
  | [] => []
  | [s] => s.data
  | s :: t :: rest => s.data ++ sep ++ joinWith sep (t :: rest)

/-- Value of a block of decimal digits. -/
def digitsToNat (ds : List Char) : Nat :=
  ds.foldl (fun acc c => 10 * acc + (c.toNat - 48)) 0

/-- Python `int(str)` on the digit strings the `res` format produces:
optional sign followed by at least one decimal digit; anything else
raises `ValueError`, modelled as `none`. -/
def pyParseInt (cs : List Char) : Option ℤ :=
  match cs with
  | '-' :: rest =>
    if rest ≠ [] ∧ rest.all Char.isDigit then some (-(digitsToNat rest : ℤ)) else none
  | '+' :: rest =>
    if rest ≠ [] ∧ rest.all Char.isDigit then some (digitsToNat rest : ℤ) else none
  | _ =>
    if cs ≠ [] ∧ cs.all Char.isDigit then some (digitsToNat cs : ℤ) else none

/-- Python `float(str)` on the decimal strings the `res` format produces:
optional sign, digits with at most one decimal point; other inputs raise
`ValueError`, modelled as `none`. -/
def pyParseFloat (cs : List Char) : Option ℚ :=
  let core : List Char → Option ℚ := fun t =>
    let intPart := t.takeWhile Char.isDigit
    match t.drop intPart.length with
    | [] => if intPart ≠ [] then some (digitsToNat intPart : ℚ) else none
    | '.' :: fracPart =>
      if fracPart.all Char.isDigit ∧ (intPart ≠ [] ∨ fracPart ≠ []) then
        some ((digitsToNat intPart : ℚ) +
          (digitsToNat fracPart : ℚ) / ((10 : ℚ) ^ fracPart.length))
      else none
    | _ => none
  match cs with
  | '-' :: rest => (core rest).map (fun q => -q)
  | '+' :: rest => core rest
  | _ => core cs

/-- Scanner for Python `str.split(sep)` (nonempty separator),
fuel-structural exactly like `pyReplaceFuel`. -/
def pySplitFuel (p : Char) (ps : List Char) : Nat → List Char → List (List Char)
  | _, [] => [[]]
  | 0, s => [s]
  | fuel + 1, c :: cs =>
    if (p :: ps).isPrefixOf (c :: cs) then
      [] :: pySplitFuel p ps fuel (cs.drop ps.length)
    else
      match pySplitFuel p ps fuel cs with
      | [] => [[c]]
      | h :: t => (c :: h) :: t

/-- Python `s.split(sep)` for a nonempty separator. -/
def pySplit (s sep : List Char) : List (List Char) :=
  match sep with
  | [] => [s]
  | p :: ps => pySplitFuel p ps s.length s

namespace BuildHistoryManager

/-- One entry of `history_data["builds"][target_key]`
(`build_record` in `record_build_duration`). -/
structure BuildRecord where
  duration : ℚ
  timestamp : ℚ
  targets : List String
  success : Bool
deriving DecidableEq

/-- `BuildHistoryManager._get_target_key`. -/
def get_target_key (targets : List String) : String :=
  if targets = [] then "full_build"
  else
    let sorted_targets := pySorted targets
    if sorted_targets.length = 1 then
      let target := sorted_targets.headI
      if "/fast".data.isSuffixOf target.data then
        let package_name :=
          pyReplace (pyReplace target.data "/fast".data []) "package_".data []
        ⟨"package_".data ++ package_name⟩
      else if target = "all" ∨ target = "install" then "full_build"
      else ⟨"target_".data ++ target.data⟩
    else
      if sorted_targets.all (fun t => "package_".data.isPrefixOf t.data) then
        ⟨"multi_package_".data ++ (Nat.repr sorted_targets.length).data⟩
      else
        ⟨"multi_target_".data ++ (Nat.repr sorted_targets.length).data⟩

/-- The per-key window update performed by
`BuildHistoryManager.record_build_duration` (the rolling-window trim with
`max_history = 50`); metadata bookkeeping and the save to disk carry no
window state and are omitted. -/
def record_build_duration (window : List BuildRecord) (targets : List String)
    (duration current_time : ℚ) : List BuildRecord :=
  capWindow 50 (window ++ [{ duration := duration, timestamp := current_time,
                             targets := targets, success := true }])

/-- `BuildHistoryManager._remove_outliers`.  The source filters on
`abs(d - mean) <= threshold * std_dev` with `std_dev = variance ** 0.5`;
both sides are nonnegative, so the test is kept in the equivalent squared
form `(d - mean)^2 <= threshold^2 * variance`, and `std_dev == 0` is the
equivalent `variance == 0`. -/
def remove_outliers (durations : List ℚ) (threshold : ℚ) : List ℚ :=
  if durations.length < 3 then durations
  else
    let mean_duration := durations.sum / durations.length
    let variance :=
      (durations.map (fun d => (d - mean_duration) * (d - mean_duration))).sum /
        durations.length
    if variance = 0 then durations
    else
      let filtered := durations.filter
        (fun d => (d - mean_duration) * (d - mean_duration) ≤
          threshold * threshold * variance)
      if filtered.length < 3 then durations else filtered

/-- `BuildHistoryManager._calculate_trend_factor`. -/
def calculate_trend_factor (durations : List ℚ) : ℚ :=
  if durations.length < 3 then 1
  else
    let n := durations.length
    let x_values := (List.range n).map (fun (i : ℕ) => (i : ℚ))
    let x_mean := x_values.sum / (n : ℚ)
    let y_mean := durations.sum / (n : ℚ)
    let numerator :=
      (List.zipWith (fun x y => (x - x_mean) * (y - y_mean)) x_values durations).sum
    let denominator := (x_values.map (fun x => (x - x_mean) * (x - x_mean))).sum
    if denominator = 0 then 1
    else
      let slope := numerator / denominator
      max (1 / 2) (min 2 (1 + slope * (1 / 10)))

/-- The recency weights `[(i + 1) * 0.1 + 0.5 for i in range(len(durations))]`
of `get_predicted_duration`. -/
def prediction_weights (n : Nat) : List ℚ :=
  (List.range n).map (fun (i : ℕ) => ((i : ℚ) + 1) * (1 / 10) + 1 / 2)

/-- The recency-weighted average `weighted_sum / weight_sum` of
`get_predicted_duration`. -/
def weighted_predict (durations : List ℚ) : ℚ :=
  (List.zipWith (fun d w => d * w) durations
    (prediction_weights durations.length)).sum /
  (prediction_weights durations.length).sum

/-- The `durations` list of `get_predicted_duration`: the durations of the
last 10 recorded builds, outlier-filtered when at least 5 are present. -/
def selected_durations (build_history : List BuildRecord) : List ℚ :=
  if 5 ≤ ((lastN 10 build_history).map (fun b => b.duration)).length then
    remove_outliers ((lastN 10 build_history).map (fun b => b.duration)) (5 / 2)
  else
    (lastN 10 build_history).map (fun b => b.duration)

/-- Body of `BuildHistoryManager.get_predicted_duration` applied to the
stored history of the derived target key (the source's local variables
`recent_builds`, `durations`, `weights`, `weighted_sum`, `weight_sum` and
`predicted_duration` are the named helpers above). -/
def predict_from_history (build_history : List BuildRecord) : Option ℚ :=
  if build_history.length < 3 then none
  else
    if (selected_durations build_history).length < 3 then none
    else
      if 5 ≤ (selected_durations build_history).length then
        some (weighted_predict (selected_durations build_history) *
          calculate_trend_factor (selected_durations build_history))
      else
        some (weighted_predict (selected_durations build_history))

/-- `BuildHistoryManager.get_predicted_duration`: look the derived target
key up in `history_data["builds"]` (absent key ⇒ `None`). -/
def get_predicted_duration (builds : List (String × List BuildRecord))
    (targets : List String) : Option ℚ :=
  match builds.lookup (get_target_key targets) with
  | none => none
  | some build_history => predict_from_history build_history

/-- The records stored for the target key derived from `targets`
(absent key ⇒ the empty history). -/
def records_for (builds : List (String × List BuildRecord))
    (targets : List String) : List BuildRecord :=
  (builds.lookup (get_target_key targets)).getD []

end BuildHistoryManager

namespace HealthScoreTracker

/-- One entry of `tracker_data["build_metrics"][target_key]`
(`metric_record` in `record_build_completion`). -/
structure MetricRecord where
  timestamp : ℚ
  success : Bool
  duration : ℚ
  predicted_duration : Option ℚ
  prediction_accuracy : ℚ
  warning_count : ℤ
  cpu_usage : Option ℤ
  memory_usage : Option ℚ
  targets : List String
deriving DecidableEq

/-- `HealthScoreTracker._get_target_key`. -/
def get_target_key (targets : List String) : String :=
  if targets = [] then "default_build"
  else
    let sorted_targets := pySorted targets
    ⟨pyReplace (pyReplace (joinWith "_".data sorted_targets) "/".data "_".data)
      "package_".data "pkg_".data⟩

/-- `HealthScoreTracker._calculate_prediction_accuracy`. -/
def calculate_prediction_accuracy (actual_duration : ℚ)
    (predicted_duration : Option ℚ) : ℚ :=
  match predicted_duration with
  | none => 0
  | some predicted =>
    if predicted ≤ 0 then 0
    else if actual_duration ≤ 0 then 0
    else max 0 (1 - |actual_duration - predicted| / predicted)

/-- The resource-metric extraction at the top of
`record_build_completion`: parse `resource_usage['res']` of shape
`"cpu%/mem"`.  `resource_usage = None` and a dict without `'res'` both
yield no metrics; a `ValueError` inside the `try` block leaves whichever
of the two fields was not yet assigned at `None`. -/
def extract_resource_metrics (resource_usage : Option String) :
    Option ℤ × Option ℚ :=
  match resource_usage with
  | none => (none, none)
  | some res =>
    let res_str := res.data
    if containsSub "%/".data res_str then
      match pySplit res_str "%/".data with
      | [cpu_str, mem_str] =>
        match pyParseInt (pyReplace cpu_str "%".data []) with
        | none => (none, none)
        | some cpu_usage =>
          let memory_usage :=
            if "g".data.isSuffixOf mem_str then
              (pyParseFloat (pyReplace mem_str "g".data [])).map (fun m => m * 1024)
            else
              pyParseFloat (pyReplace mem_str "m".data [])
          (some cpu_usage, memory_usage)
      | _ => (none, none)
    else (none, none)

/-- The per-key window update performed by
`HealthScoreTracker.record_build_completion` (rolling-window trim with
`max_history = 20`); metadata bookkeeping and the save to disk are
window-free and omitted. -/
def record_build_completion (window : List MetricRecord) (targets : List String)
    (success : Bool) (duration : ℚ) (predicted_duration : Option ℚ)
    (warning_count : ℤ) (resource_usage : Option String)
    (current_time : ℚ) : List MetricRecord :=
  let extracted := extract_resource_metrics resource_usage
  capWindow 20 (window ++ [{
    timestamp := current_time
    success := success
    duration := duration
    predicted_duration := predicted_duration
    prediction_accuracy := calculate_prediction_accuracy duration predicted_duration
    warning_count := warning_count
    cpu_usage := extracted.1
    memory_usage := extracted.2
    targets := targets }])

/-- `HealthScoreTracker._calculate_success_score`. -/
def calculate_success_score (metrics : List MetricRecord) : ℚ :=
  if metrics = [] then 0
  else
    let successful_builds := (metrics.filter (fun m => m.success)).length
    let success_rate := (successful_builds : ℚ) / (metrics.length : ℚ)
    if success_rate = 1 then 100
    else if 9 / 10 ≤ success_rate then 85 + (success_rate - 9 / 10) * 150
    else if 7 / 10 ≤ success_rate then 60 + (success_rate - 7 / 10) * 125
    else success_rate * 85

/-- `HealthScoreTracker._calculate_performance_score`. -/
def calculate_performance_score (metrics : List MetricRecord) : ℚ :=
  if metrics = [] then 0
  else
    let durations := (metrics.map (fun m => m.duration)).filter (fun d => 0 < d)
    if durations.length < 2 then 80
    else
      let recent_durations := if 5 ≤ durations.length then lastN 5 durations else durations
      let older_durations :=
        if 5 ≤ durations.length then durations.take (durations.length - 5) else []
      if older_durations ≠ [] then
        let recent_avg := listMean recent_durations
        let older_avg := listMean older_durations
        let performance_ratio := if 0 < recent_avg then older_avg / recent_avg else 1
        if 12 / 10 < performance_ratio then 95
        else if 105 / 100 < performance_ratio then 85
        else if 95 / 100 < performance_ratio then 80
        else if 8 / 10 < performance_ratio then 65
        else 40
      else
        let accurate_predictions :=
          metrics.filter (fun m => 8 / 10 < m.prediction_accuracy)
        if 3 ≤ accurate_predictions.length then
          70 + listMean (accurate_predictions.map (fun m => m.prediction_accuracy)) * 30
        else 75

/-- `HealthScoreTracker._calculate_warning_score`.  Python
`any(warning_counts)` is "some count is truthy", i.e. nonzero. -/
def calculate_warning_score (metrics : List MetricRecord) : ℚ :=
  if metrics = [] then 100
  else
    let warning_counts := metrics.map (fun m => m.warning_count)
    if ¬ warning_counts.any (fun w => w ≠ 0) then 100
    else
      let recent_warnings :=
        if 5 ≤ warning_counts.length then lastN 5 warning_counts else warning_counts
      let avg_warnings := listMean (recent_warnings.map (fun (w : ℤ) => (w : ℚ)))
      if avg_warnings = 0 then 100
      else if avg_warnings ≤ 2 then 90
      else if avg_warnings ≤ 5 then 75
      else if avg_warnings ≤ 10 then 60
      else if avg_warnings ≤ 20 then 40
      else 20

/-- `HealthScoreTracker._calculate_resource_score`. -/
def calculate_resource_score (metrics : List MetricRecord) : ℚ :=
  let cpu_values := metrics.filterMap (fun m => m.cpu_usage)
  let memory_values := metrics.filterMap (fun m => m.memory_usage)
  if cpu_values = [] ∧ memory_values = [] then 80
  else
    let score : ℚ := 100
    let score :=
      if cpu_values ≠ [] then
        let avg_cpu := listMean (cpu_values.map (fun (c : ℤ) => (c : ℚ)))
        if 95 < avg_cpu then score - 20
        else if 85 < avg_cpu then score - 10
        else if avg_cpu < 30 then score - 5
        else score
      else score
    let score :=
      if memory_values ≠ [] then
        let avg_memory_gb := listMean memory_values / 1024
        if 8 < avg_memory_gb then score - 20
        else if 4 < avg_memory_gb then score - 10
        else if 2 < avg_memory_gb then score - 5
        else score
      else score
    max 0 score

/-- Score computation of `HealthScoreTracker.calculate_health_score` on the
stored metrics of the derived target key; the appended health-history entry
is modelled separately by `health_history_append`, and the save to disk is
omitted. -/
def calculate_health_score_of (metrics : List MetricRecord) : Option ℤ :=
  if metrics.length < 5 then none
  else
    let success_score := calculate_success_score metrics
    let performance_score := calculate_performance_score metrics
    let warning_score := calculate_warning_score metrics
    let resource_score := calculate_resource_score metrics
    let health_score :=
      success_score * (4 / 10) + performance_score * (3 / 10) +
      warning_score * (2 / 10) + resource_score * (1 / 10)
    some (pyTrunc health_score)

/-- `HealthScoreTracker.calculate_health_score` at the map level:
absent key ⇒ `None`. -/
def calculate_health_score (build_metrics : List (String × List MetricRecord))
    (targets : List String) : Option ℤ :=
  match build_metrics.lookup (get_target_key targets) with
  | none => none
  | some metrics => calculate_health_score_of metrics

/-- One entry of `tracker_data["health_history"][target_key]`. -/
structure HealthEntry where
  timestamp : ℚ
  health_score : ℤ
  success_component : ℚ
  performance_component : ℚ
  warning_component : ℚ
  resource_component : ℚ
deriving DecidableEq

/-- The health-history window update inside
`calculate_health_score` (rolling-window trim at 10 entries). -/
def health_history_append (history : List HealthEntry) (entry : HealthEntry) :
    List HealthEntry :=
  capWindow 10 (history ++ [entry])

/-- The map-level update of `record_build_completion`: update the window
stored under the derived target key. -/
def record_build_completion_map (build_metrics : List (String × List MetricRecord))
    (targets : List String) (success : Bool) (duration : ℚ)
    (predicted_duration : Option ℚ) (warning_count : ℤ)
    (resource_usage : Option String) (current_time : ℚ) :
    List (String × List MetricRecord) :=
  let key := get_target_key targets
  let window := (build_metrics.lookup key).getD []
  dictInsert build_metrics key
    (record_build_completion window targets success duration predicted_duration
      warning_count resource_usage current_time)

end HealthScoreTracker

namespace IncrementalBuildTracker

/-- `IncrementalBuildTracker._get_target_key` (textually identical to
`HealthScoreTracker._get_target_key`). -/
def get_target_key (targets : List String) : String :=
  if targets = [] then "default_build"
  else
    let sorted_targets := pySorted targets
    ⟨pyReplace (pyReplace (joinWith "_".data sorted_targets) "/".data "_".data)
      "package_".data "pkg_".data⟩

/-- One file produced by the `_get_monitored_files` walk, as seen by
`detect_changes_since_build`: its project-relative path, its base name and
suffix (`pathlib` `name`/`suffix`), and its current mtime. -/
structure MonitoredFile where
  relativePath : String
  name : String
  suffix : String
  mtime : ℚ
deriving DecidableEq

/-- Return value of `detect_changes_since_build` when changes exist. -/
structure ChangeData where
  changed_files : List String
  config_files_changed : List String
  total_changes : Nat
  last_build_time : ℚ
  scan_time : ℚ
deriving DecidableEq

/-- `IncrementalBuildTracker.detect_changes_since_build`.  The
file-system walk is passed in as `monitored_files`; the
`tracker_data["last_successful_builds"]` dict as an association list
(`dict.get(key, 0)` default 0); metadata update and save are omitted. -/
def detect_changes_since_build (last_successful_builds : List (String × ℚ))
    (monitored_files : List MonitoredFile) (targets : List String)
    (current_time : ℚ) : Option ChangeData :=
  let target_key := get_target_key targets
  let last_build_time := (last_successful_builds.lookup target_key).getD 0
  if last_build_time = 0 then none
  else
    let changed := monitored_files.filter (fun f => last_build_time < f.mtime)
    let changed_files := changed.map (fun f => f.relativePath)
    let config_files_changed :=
      (changed.filter (fun f =>
        f.name = "CMakeLists.txt" ∨ f.suffix = ".cmake" ∨ f.name = "Makefile")).map
        (fun f => f.relativePath)
    if changed_files = [] then none
    else some { changed_files := changed_files
                config_files_changed := config_files_changed
                total_changes := changed_files.length
                last_build_time := last_build_time
                scan_time := current_time }

end IncrementalBuildTracker

namespace BuildSession

/-- The `\[(\d+)%\]` match attempt immediately after an opening bracket:
a maximal nonempty run of decimal digits followed by `%]`. -/
def parse_progress_at (cs : List Char) : Option Nat :=
  let ds := cs.takeWhile Char.isDigit
  if ds = [] then none
  else
    match cs.drop ds.length with
    | '%' :: ']' :: _ => some (digitsToNat ds)
    | _ => none

/-- Leftmost search for `\[(\d+)%\]` (ASCII digits). -/
def find_progress_pct : List Char → Option Nat
  | [] => none
  | c :: rest =>
    if c = '[' then
      match parse_progress_at rest with
      | some n => some n
      | none => find_progress_pct rest
    else find_progress_pct rest

/-- `BuildSession._get_progress_percentage`.  The status-file read is
passed in as `progress_field`: `none` when the status file is absent,
unreadable or malformed JSON, `some s` for the `progress` string the JSON
holds (`""` when the key is missing). -/
def get_progress_percentage (progress_field : Option String) : Option ℚ :=
  match progress_field with
  | none => none
  | some progress_str =>
    if progress_str ≠ "" ∧ progress_str.data.contains '[' ∧
        progress_str.data.contains '%' then
      (find_progress_pct progress_str.data).map (fun (n : ℕ) => (n : ℚ))
    else none

/-- `BuildSession.calculate_eta`, returning the computed completion
timestamp (the source wraps this number into an ISO string; the injective
formatting step is not modelled).  `current_time` is the explicit argument
that defaults to `time.time()` in the source. -/
def calculate_eta (predicted_duration : Option ℚ) (start_time : ℚ)
    (progress_field : Option String) (current_time : ℚ) : Option ℚ :=
  match predicted_duration with
  | none => none
  | some pd =>
    let progress_percentage := get_progress_percentage progress_field
    match progress_percentage with
    | some p =>
      if 0 < p then
        let remaining_percentage := (100 - p) / 100
        let remaining_time := pd * remaining_percentage
        some (current_time + remaining_time)
      else some (start_time + pd)
    | none => some (start_time + pd)

end BuildSession

namespace ResourceMonitor

/-- One sample appended by `_sampling_loop`. -/
structure RSample where
  timestamp : ℚ
  cpu_percent : ℚ
  memory_mb : ℚ
deriving DecidableEq

/-- The mutable sampler state (`sample_interval` and the thread handle
carry no sampled data and are omitted). -/
structure MonitorState where
  sampling_active : Bool
  samples : List RSample
  peak_cpu : ℚ
  peak_memory_mb : ℚ
deriving DecidableEq

/-- `ResourceMonitor.__init__` state. -/
def initState : MonitorState :=
  { sampling_active := false, samples := [], peak_cpu := 0, peak_memory_mb := 0 }

/-- `ResourceMonitor.start_sampling` (returns success flag and new state;
the spawned thread is modelled by explicit `record_sample` events). -/
def start_sampling (has_psutil : Bool) (m : MonitorState) : Bool × MonitorState :=
  if ¬ has_psutil then (false, m)
  else if m.sampling_active then (true, m)
  else (true, { sampling_active := true, samples := [], peak_cpu := 0,
                peak_memory_mb := 0 })

/-- One iteration of `_sampling_loop` under the lock, fed a psutil
reading: append the sample, update peaks, cap the history at 100. -/
def record_sample (m : MonitorState) (t cpu mem : ℚ) : MonitorState :=
  if m.sampling_active then
    { m with
      samples := capWindow 100 (m.samples ++ [{ timestamp := t, cpu_percent := cpu,
                                                memory_mb := mem }])
      peak_cpu := max m.peak_cpu cpu
      peak_memory_mb := max m.peak_memory_mb mem }
  else m

/-- The numeric content of `_calculate_final_metrics`: the averages and
the conditionally-included peak pair (the source renders these numbers
into the compact `"cpu%/mem"` strings; the rendering is presentation and
not modelled). -/
structure FinalMetrics where
  avg_cpu : ℚ
  avg_memory : ℚ
  peak : Option (ℚ × ℚ)
deriving DecidableEq

/-- `ResourceMonitor._calculate_final_metrics`. -/
def calculate_final_metrics (m : MonitorState) : Option FinalMetrics :=
  if m.samples = [] then none
  else
    let sample_count := m.samples.length
    let avg_cpu := (m.samples.map (fun s => s.cpu_percent)).sum / sample_count
    let avg_memory := (m.samples.map (fun s => s.memory_mb)).sum / sample_count
    let peak_diff_cpu := if 0 < avg_cpu then (m.peak_cpu - avg_cpu) / avg_cpu else 0
    let peak_diff_mem :=
      if 0 < avg_memory then (m.peak_memory_mb - avg_memory) / avg_memory else 0
    if (2 / 10 < peak_diff_cpu ∧ 80 < m.peak_cpu) ∨
        (2 / 10 < peak_diff_mem ∧ 1024 < m.peak_memory_mb) then
      some { avg_cpu := avg_cpu, avg_memory := avg_memory,
             peak := some (m.peak_cpu, m.peak_memory_mb) }
    else
      some { avg_cpu := avg_cpu, avg_memory := avg_memory, peak := none }

/-- `ResourceMonitor.stop_sampling`: final metrics (or `None`) plus the
state after deactivation. -/
def stop_sampling (has_psutil : Bool) (m : MonitorState) :
    Option FinalMetrics × MonitorState :=
  if ¬ has_psutil then (none, m)
  else if ¬ m.sampling_active then (none, m)
  else
    let stopped : MonitorState := { m with sampling_active := false }
    (calculate_final_metrics stopped, stopped)

/-- `ResourceMonitor.should_include_in_response`.  The
`build_duration` parameter keeps Python truthiness: the guard
`if build_duration and build_duration < 30` fires only for a provided
*nonzero* duration below 30. -/
def should_include_in_response (has_psutil : Bool) (m : MonitorState)
    (build_duration : Option ℚ) : Bool :=
  if ¬ has_psutil ∨ m.samples = [] then false
  else
    let short_build : Bool :=
      match build_duration with
      | some d => d ≠ 0 ∧ d < 30
      | none => false
    if short_build then false
    else decide (50 < m.peak_cpu ∨ 500 < m.peak_memory_mb)

end ResourceMonitor

namespace FixSuggestionsDatabase

/-- A catalog entry of `suggestions_db["patterns"]` as
`get_fix_suggestions` consumes it.  The five mandatory fields are
guaranteed by the default catalog and by `add_custom_pattern`'s
validation; `applicable_systems` is read with `.get(..., [])`, so an
absent key is the empty list. -/
structure FixPattern where
  regex_patterns : List String
  suggested_fix : String
  fix_commands : List String
  fix_type : String
  confidence : ℤ
  applicable_systems : List String
deriving DecidableEq

/-- One element of the list `get_fix_suggestions` returns. -/
structure Suggestion where
  pattern : String
  suggested_fix : String
  fix_commands : List String
  fix_type : String
  confidence : ℤ
  error_category : Option String
deriving DecidableEq

/-- `pathlib.Path(p).suffix` (`rfind('.')` on the final path component;
the dot may be neither the first nor past the last character).  The
trailing-slash normalization of `pathlib` is not modelled. -/
def pathSuffix (s : List Char) : List Char :=
  let name := ((pySplit s "/".data).getLast?).getD []
  let afterDot := (name.reverse.takeWhile (fun c => c ≠ '.')).reverse
  if afterDot.length = name.length then []
  else
    let i := name.length - 1 - afterDot.length
    if 0 < i ∧ i < name.length - 1 then name.drop i else []

/-- `FixSuggestionsDatabase._apply_context_adjustments`. -/
def apply_context_adjustments (error_message file_path : String)
    (pattern_data : FixPattern) : ℤ :=
  let adjustment : ℤ := 0
  let adjustment :=
    if file_path ≠ "" then
      let file_ext := (pathSuffix file_path.data).map Char.toLower
      if file_ext = ".c".data ∨ file_ext = ".cpp".data ∨ file_ext = ".cc".data ∨
          file_ext = ".cxx".data ∨ file_ext = ".h".data ∨ file_ext = ".hpp".data then
        let fix_lower := pattern_data.suggested_fix.data.map Char.toLower
        if containsSub "library".data fix_lower ∨ containsSub "header".data fix_lower ∨
            containsSub "linker".data fix_lower then
          adjustment + 5
        else adjustment
      else adjustment
    else adjustment
  let adjustment := if 100 < error_message.length then adjustment + 3 else adjustment
  let adjustment :=
    if containsSub "fatal error".data (error_message.data.map Char.toLower) then
      adjustment + 2
    else adjustment
  if "all" ∈ pattern_data.applicable_systems ∨
      "linux" ∈ pattern_data.applicable_systems then
    adjustment + 2
  else adjustment

/-- `FixSuggestionsDatabase._calculate_confidence`.  `re.search` with
`IGNORECASE` is the abstract oracle `regex_search pattern text`; the
single-use locals `base_confidence`, `match_ratio` and the `confidence`
updates of the source are inlined. -/
def calculate_confidence (regex_search : String → String → Bool)
    (error_message file_path : String) (pattern_data : FixPattern) : ℤ :=
  if pattern_data.regex_patterns.countP (fun p => regex_search p error_message) = 0
  then 0
  else
    max 0 (min 100
      (pyTrunc ((pattern_data.confidence : ℚ) *
        ((pattern_data.regex_patterns.countP
            (fun p => regex_search p error_message) : ℚ) /
          (pattern_data.regex_patterns.length : ℚ))) +
       apply_context_adjustments error_message file_path pattern_data))

/-- The descending-confidence order of
`suggestions.sort(key=..., reverse=True)`. -/
def conf_ge (s t : Suggestion) : Prop := t.confidence ≤ s.confidence

instance conf_ge_decidable : DecidableRel conf_ge :=
  fun s t => inferInstanceAs (Decidable (t.confidence ≤ s.confidence))

/-- `FixSuggestionsDatabase.get_fix_suggestions`: the
`suggestions_db` may lack a `"patterns"` key (`none`), in which case the
empty list is returned at once. -/
def get_fix_suggestions (regex_search : String → String → Bool)
    (patterns : Option (List (String × FixPattern)))
    (error_message file_path error_category : String) : List Suggestion :=
  match patterns with
  | none => []
  | some patterns =>
    let suggestions := patterns.filterMap (fun pr =>
      let confidence :=
        calculate_confidence regex_search error_message file_path pr.2
      if 60 ≤ confidence then
        some { pattern := pr.1
               suggested_fix := pr.2.suggested_fix
               fix_commands := pr.2.fix_commands
               fix_type := pr.2.fix_type
               confidence := confidence
               error_category :=
                 if error_category ≠ "" then some error_category else none }
      else none)
    (List.insertionSort conf_ge suggestions).take 3

/-- A candidate pattern dict handed to `add_custom_pattern`: each field is
`some` exactly when the corresponding key is present. -/
structure PatternInput where
  regex_patterns : Option (List String)
  suggested_fix : Option String
  fix_commands : Option (List String)
  fix_type : Option String
  confidence : Option ℤ
  applicable_systems : Option (List String)
deriving DecidableEq

/-- The slices of `suggestions_db` that `add_custom_pattern` touches: the
(possibly absent) `"patterns"` dict and the (possibly absent)
`metadata["pattern_count"]` entry (outer `none` ⇒ no `"metadata"` dict). -/
structure FixDb where
  patterns : Option (List (String × PatternInput))
  metadata_pattern_count : Option (Option Nat)
deriving DecidableEq

/-- All five `required_fields` of `add_custom_pattern` are present. -/
def has_required_fields (pattern_data : PatternInput) : Bool :=
  pattern_data.regex_patterns.isSome && pattern_data.suggested_fix.isSome &&
  pattern_data.fix_commands.isSome && pattern_data.fix_type.isSome &&
  pattern_data.confidence.isSome

/-- `FixSuggestionsDatabase.add_custom_pattern` (the save to disk only
logs on failure and is omitted; no statement in the body raises, so the
`except` fallback is dead). -/
def add_custom_pattern (db : FixDb) (pattern_id : String)
    (pattern_data : PatternInput) : Bool × FixDb :=
  if ¬ has_required_fields pattern_data then (false, db)
  else
    let patterns := db.patterns.getD []
    let patterns := dictInsert patterns pattern_id pattern_data
    (true, { patterns := some patterns
             metadata_pattern_count := some (some patterns.length) })

end FixSuggestionsDatabase

namespace BuildMonitorServer

/-- The child-process handle of a session: `alive` is true exactly when
`process.poll()` returns `None`. -/
structure ProcessHandle where
  alive : Bool
deriving DecidableEq

/-- The slice of a `BuildSession` that `build_monitor_terminate` touches. -/
structure ServerSession where
  process : Option ProcessHandle
  status : String
deriving DecidableEq

/-- Signals the handler may send to the child process.
`process.terminate()` sends the graceful stop signal; a forced kill
(`process.kill()`) never occurs in the source but is representable. -/
inductive TermSignal
  | term
  | kill
deriving DecidableEq

/-- The JSON payload `build_monitor_terminate` returns. -/
inductive TermResponse
  | ok (build_id : String) (status : String)
  | err (message : String)
deriving DecidableEq

/-- `build_monitor_terminate`: result payload, updated `active_builds`,
and the list of signals sent to the child process.  Python truthiness of
`build_id` makes the empty string fall to the error branch. -/
def build_monitor_terminate (active_builds : List (String × ServerSession))
    (build_id : Option String) :
    TermResponse × List (String × ServerSession) × List TermSignal :=
  match build_id with
  | some id =>
    if id ≠ "" then
      match active_builds.lookup id with
      | some session =>
        match session.process with
        | some proc =>
          if proc.alive then
            (TermResponse.ok id "terminated",
             dictInsert active_builds id { session with status := "terminated" },
             [TermSignal.term])
          else (TermResponse.ok id "not_running", active_builds, [])
        | none => (TermResponse.ok id "not_running", active_builds, [])
      | none => (TermResponse.err "Build ID required or not found", active_builds, [])
    else (TermResponse.err "Build ID required or not found", active_builds, [])
  | none => (TermResponse.err "Build ID required or not found", active_builds, [])

end BuildMonitorServer

lemma lastN_of_length_le {α : Type} {n : Nat} {l : List α} (h : l.length ≤ n) :
    lastN n l = l := by
  unfold lastN
  have : l.length - n = 0 := by omega
  rw [this, List.drop_zero]

lemma capWindow_eq_lastN {α : Type} (cap : Nat) (l : List α) :
    capWindow cap l = lastN cap l := by
  unfold capWindow
  split
  · rfl
  · rw [lastN_of_length_le (by omega)]

lemma capWindow_length_le {α : Type} (cap : Nat) (l : List α) :
    (capWindow cap l).length ≤ cap ∨ l.length ≤ cap := by
  unfold capWindow lastN
  split
  · left
    simp only [List.length_drop]
    omega
  · right
    omega

lemma capWindow_length_le_of_le {α : Type} {cap : Nat} {l : List α}
    (h : l.length ≤ cap + 1) : (capWindow cap l).length ≤ cap := by
  unfold capWindow lastN
  split
  · simp only [List.length_drop]
    omega
  · omega

lemma foldl_capWindow_length_le {α β : Type} (cap : Nat)
    (step : List α → β → List α)
    (hstep : ∀ w x, w.length ≤ cap → (step w x).length ≤ cap) :
    ∀ (inputs : List β) (w : List α), w.length ≤ cap →
      (inputs.foldl step w).length ≤ cap := by
  intro inputs
  induction inputs with
  | nil => intro w hw; simpa using hw
  | cons i is ih =>
    intro w hw
    exact ih (step w i) (hstep w i hw)

/-- C6: after any number of insertions the duration-history window holds at
most 50 records, the health build-metrics window at most 20 and the
health-history window at most 10; each window is trimmed by keeping the
most recent entries (the update equals `lastN cap` of the appended list,
so the oldest entries are evicted first). -/
theorem c6_rolling_windows_bounded :
    (∀ (inputs : List (List String × ℚ × ℚ)),
      ((inputs.foldl
        (fun w i => BuildHistoryManager.record_build_duration w i.1 i.2.1 i.2.2)
        []).length ≤ 50)) ∧
    (∀ (inputs : List (List String × Bool × ℚ × Option ℚ × ℤ × Option String × ℚ)),
      ((inputs.foldl
        (fun w i => HealthScoreTracker.record_build_completion w i.1 i.2.1 i.2.2.1
          i.2.2.2.1 i.2.2.2.2.1 i.2.2.2.2.2.1 i.2.2.2.2.2.2)
        []).length ≤ 20)) ∧
    (∀ (entries : List HealthScoreTracker.HealthEntry),
      ((entries.foldl HealthScoreTracker.health_history_append []).length ≤ 10)) ∧
    (∀ (w : List BuildHistoryManager.BuildRecord) (targets : List String) (d t : ℚ),
      BuildHistoryManager.record_build_duration w targets d t =
        lastN 50 (w ++ [{ duration := d, timestamp := t, targets := targets,
                          success := true }])) ∧
    (∀ (h : List HealthScoreTracker.HealthEntry) (e : HealthScoreTracker.HealthEntry),
      HealthScoreTracker.health_history_append h e = lastN 10 (h ++ [e])) := by
  refine ⟨?_, ?_, ?_, ?_, ?_⟩
  · intro inputs
    refine foldl_capWindow_length_le 50 _ ?_ inputs [] (by simp)
    intro w x hw
    unfold BuildHistoryManager.record_build_duration
    exact capWindow_length_le_of_le (by simp; omega)
  · intro inputs
    refine foldl_capWindow_length_le 20 _ ?_ inputs [] (by simp)
    intro w x hw
    unfold HealthScoreTracker.record_build_completion
    exact capWindow_length_le_of_le (by simp; omega)
  · intro entries
    refine foldl_capWindow_length_le 10 _ ?_ entries [] (by simp)
    intro w x hw
    unfold HealthScoreTracker.health_history_append
    exact capWindow_length_le_of_le (by simp; omega)
  · intro w targets d t
    unfold BuildHistoryManager.record_build_duration
    exact capWindow_eq_lastN 50 _
  · intro h e
    unfold HealthScoreTracker.health_history_append
    exact capWindow_eq_lastN 10 _

/-- C10: `detect_changes_since_build` returns `None` exactly when either no
last-successful-build baseline exists for the derived target key (the
stored default 0) or a baseline exists but no monitored file has an mtime
greater than it — the two cases produce the identical value and are
indistinguishable from the return value alone. -/
theorem c10_detect_changes_none_iff
    (last_successful_builds : List (String × ℚ))
    (monitored_files : List IncrementalBuildTracker.MonitoredFile)
    (targets : List String) (current_time : ℚ) :
    IncrementalBuildTracker.detect_changes_since_build last_successful_builds
        monitored_files targets current_time = none ↔
      ((last_successful_builds.lookup
          (IncrementalBuildTracker.get_target_key targets)).getD 0 = 0 ∨
       ∀ f ∈ monitored_files, f.mtime ≤
         (last_successful_builds.lookup
           (IncrementalBuildTracker.get_target_key targets)).getD 0) := by
  unfold IncrementalBuildTracker.detect_changes_since_build
  by_cases h0 : (last_successful_builds.lookup
      (IncrementalBuildTracker.get_target_key targets)).getD 0 = 0
  · simp [h0]
  · rw [if_neg h0]
    by_cases hall : ∀ f ∈ monitored_files, f.mtime ≤
        (last_successful_builds.lookup
          (IncrementalBuildTracker.get_target_key targets)).getD 0
    · have hfil : monitored_files.filter (fun f =>
          decide ((last_successful_builds.lookup
            (IncrementalBuildTracker.get_target_key targets)).getD 0 < f.mtime)) = [] :=
        List.filter_eq_nil_iff.mpr (fun f hf => by
          simpa using not_lt.mpr (hall f hf))
      simp [hfil, h0]
      exact hall
    · push_neg at hall
      obtain ⟨f, hf, hlt⟩ := hall
      have hmem : f ∈ monitored_files.filter (fun f =>
          decide ((last_successful_builds.lookup
            (IncrementalBuildTracker.get_target_key targets)).getD 0 < f.mtime)) :=
        List.mem_filter.mpr ⟨hf, by simpa using hlt⟩
      have hne : monitored_files.filter (fun f =>
          decide ((last_successful_builds.lookup
            (IncrementalBuildTracker.get_target_key targets)).getD 0 < f.mtime)) ≠ [] :=
        List.ne_nil_of_mem hmem
      simp only [List.map_eq_nil_iff, if_neg hne, h0, false_or]
      constructor
      · intro h
        exact absurd h (by simp)
      · intro hall2
        exact absurd (hall2 f hf) (not_le.mpr hlt)

lemma lookup_cons {α : Type} (k : String) (p : String × α) (ps : List (String × α)) :
    (p :: ps).lookup k = if k = p.1 then some p.2 else ps.lookup k := by
  rcases p with ⟨a, b⟩
  simp only [List.lookup]
  by_cases h : k = a
  · simp [h]
  · simp [beq_eq_false_iff_ne.mpr h, h]

lemma lookup_map_replace {α : Type} (k : String) (v : α) :
    ∀ (l : List (String × α)), (l.lookup k).isSome →
      (l.map (fun p => if p.1 = k then (k, v) else p)).lookup k = some v := by
  intro l
  induction l with
  | nil => intro h; simp at h
  | cons p ps ih =>
    intro h
    by_cases hk : p.1 = k
    · simp [List.map_cons, if_pos hk, lookup_cons]
    · rw [lookup_cons] at h
      rw [if_neg (fun he => hk he.symm)] at h
      simp only [List.map_cons, if_neg hk, lookup_cons,
        if_neg (fun he => hk (he : k = p.1).symm)]
      exact ih h

lemma lookup_append_single {α : Type} (k : String) (v : α) :
    ∀ (l : List (String × α)), l.lookup k = none →
      (l ++ [(k, v)]).lookup k = some v := by
  intro l
  induction l with
  | nil => intro _; simp [lookup_cons]
  | cons p ps ih =>
    intro h
    rw [lookup_cons] at h
    by_cases hk : k = p.1
    · rw [if_pos hk] at h
      exact absurd h (by simp)
    · rw [if_neg hk] at h
      rw [List.cons_append, lookup_cons, if_neg hk]
      exact ih h

lemma lookup_dictInsert {α : Type} (l : List (String × α)) (k : String) (v : α) :
    (dictInsert l k v).lookup k = some v := by
  unfold dictInsert
  split
  · exact lookup_map_replace k v l (by assumption)
  · rename_i h
    refine lookup_append_single k v l ?_
    cases hl : l.lookup k with
    | none => rfl
    | some w => exact absurd (by simp [hl]) h

/-- C9: `add_custom_pattern` succeeds exactly when all five required
fields are present; on failure the database is returned unchanged (no
pattern added, metadata untouched), and on success the pattern is stored
in the catalog under its id. -/
theorem c9_add_custom_pattern (db : FixSuggestionsDatabase.FixDb)
    (pattern_id : String) (pattern_data : FixSuggestionsDatabase.PatternInput) :
    ((FixSuggestionsDatabase.add_custom_pattern db pattern_id pattern_data).1 = true ↔
      FixSuggestionsDatabase.has_required_fields pattern_data = true) ∧
    ((FixSuggestionsDatabase.add_custom_pattern db pattern_id pattern_data).1 = false →
      (FixSuggestionsDatabase.add_custom_pattern db pattern_id pattern_data).2 = db) ∧
    ((FixSuggestionsDatabase.add_custom_pattern db pattern_id pattern_data).1 = true →
      (((FixSuggestionsDatabase.add_custom_pattern db pattern_id
          pattern_data).2.patterns.getD []).lookup pattern_id = some pattern_data)) := by
  unfold FixSuggestionsDatabase.add_custom_pattern
  by_cases h : FixSuggestionsDatabase.has_required_fields pattern_data = true
  · rw [if_neg (by simp [h])]
    refine ⟨by simp [h], by simp, fun _ => ?_⟩
    simpa using lookup_dictInsert (db.patterns.getD []) pattern_id pattern_data
  · rw [if_pos (by simp [h])]
    simp [h]

/-- C9 witness: a fully-populated pattern is accepted and retrievable; a
pattern missing `fix_commands` is rejected with the database unchanged. -/
theorem c9_add_custom_pattern_witness :
    ((FixSuggestionsDatabase.add_custom_pattern ⟨none, none⟩ "p"
        ⟨some ["e"], some "f", some ["c"], some "quick", some 90, none⟩).1 = true ∧
     ((FixSuggestionsDatabase.add_custom_pattern ⟨none, none⟩ "p"
        ⟨some ["e"], some "f", some ["c"], some "quick", some 90,
          none⟩).2.patterns.getD []).lookup "p" =
       some ⟨some ["e"], some "f", some ["c"], some "quick", some 90, none⟩) ∧
    ((FixSuggestionsDatabase.add_custom_pattern ⟨none, none⟩ "q"
        ⟨some ["e"], some "f", none, some "quick", some 90, none⟩).1 = false ∧
     (FixSuggestionsDatabase.add_custom_pattern ⟨none, none⟩ "q"
        ⟨some ["e"], some "f", none, some "quick", some 90, none⟩).2 = ⟨none, none⟩) :=
  ⟨⟨(c9_add_custom_pattern ⟨none, none⟩ "p" _).1.mpr (by decide),
    (c9_add_custom_pattern ⟨none, none⟩ "p" _).2.2 (by decide)⟩,
   ⟨by decide,
    (c9_add_custom_pattern ⟨none, none⟩ "q" _).2.1 (by decide)⟩⟩

/-- C4 counterexample: a session whose process ignores the graceful stop
signal is reported `terminated` after a single `terminate()` that sends
only the graceful stop signal — no force kill is ever sent; and once the
process has exited, a second `terminate()` on the already-terminal session
returns `not_running`, not the terminal status `terminated`. -/
theorem c4_terminate_counterexample :
    (BuildMonitorServer.build_monitor_terminate
        [("b1", ⟨some ⟨true⟩, "running"⟩)] (some "b1")).1 =
      BuildMonitorServer.TermResponse.ok "b1" "terminated" ∧
    (BuildMonitorServer.build_monitor_terminate
        [("b1", ⟨some ⟨true⟩, "running"⟩)] (some "b1")).2.2 =
      [BuildMonitorServer.TermSignal.term] ∧
    BuildMonitorServer.TermSignal.kill ∉
      (BuildMonitorServer.build_monitor_terminate
        [("b1", ⟨some ⟨true⟩, "running"⟩)] (some "b1")).2.2 ∧
    (BuildMonitorServer.build_monitor_terminate
        [("b1", ⟨some ⟨false⟩, "terminated"⟩)] (some "b1")).1 =
      BuildMonitorServer.TermResponse.ok "b1" "not_running" ∧
    BuildMonitorServer.TermResponse.ok "b1" "not_running" ≠
      BuildMonitorServer.TermResponse.ok "b1" "terminated" := by
  refine ⟨by decide, by decide, by decide, by decide, by decide⟩

/-- C4 (amended): `terminate` on a known session whose process is still
running sends only the graceful stop signal (no force kill, no grace
window), immediately marks the session `terminated` and returns
`terminated`; on a known session whose process has exited or is absent —
including one already in the `terminated` state — it changes nothing and
returns `not_running` rather than the terminal status. -/
theorem c4_terminate_behavior (active_builds : List (String × BuildMonitorServer.ServerSession))
    (id : String) (session : BuildMonitorServer.ServerSession)
    (hid : id ≠ "") (hlook : active_builds.lookup id = some session) :
    (∀ proc, session.process = some proc → proc.alive = true →
      BuildMonitorServer.build_monitor_terminate active_builds (some id) =
        (BuildMonitorServer.TermResponse.ok id "terminated",
         dictInsert active_builds id { session with status := "terminated" },
         [BuildMonitorServer.TermSignal.term])) ∧
    ((session.process = none ∨
        ∃ proc, session.process = some proc ∧ proc.alive = false) →
      BuildMonitorServer.build_monitor_terminate active_builds (some id) =
        (BuildMonitorServer.TermResponse.ok id "not_running", active_builds, [])) := by
  constructor
  · intro proc hproc halive
    simp [BuildMonitorServer.build_monitor_terminate, hid, hlook, hproc, halive]
  · intro hdead
    rcases hdead with hnone | ⟨proc, hproc, hfalse⟩
    · simp [BuildMonitorServer.build_monitor_terminate, hid, hlook, hnone]
    · simp [BuildMonitorServer.build_monitor_terminate, hid, hlook, hproc, hfalse]

/-- C4 witness: the amended behavior at a concrete one-session state, in
both the live-process and exited-process branches. -/
theorem c4_terminate_behavior_witness :
    BuildMonitorServer.build_monitor_terminate
        [("b1", ⟨some ⟨true⟩, "running"⟩)] (some "b1") =
      (BuildMonitorServer.TermResponse.ok "b1" "terminated",
       dictInsert [("b1", ⟨some ⟨true⟩, "running"⟩)] "b1"
         ⟨some ⟨true⟩, "terminated"⟩,
       [BuildMonitorServer.TermSignal.term]) ∧
    BuildMonitorServer.build_monitor_terminate
        [("b1", ⟨some ⟨false⟩, "terminated"⟩)] (some "b1") =
      (BuildMonitorServer.TermResponse.ok "b1" "not_running",
       [("b1", ⟨some ⟨false⟩, "terminated"⟩)], []) :=
  ⟨(c4_terminate_behavior [("b1", ⟨some ⟨true⟩, "running"⟩)] "b1"
      ⟨some ⟨true⟩, "running"⟩ (by decide) (by decide)).1 ⟨true⟩ rfl rfl,
   (c4_terminate_behavior [("b1", ⟨some ⟨false⟩, "terminated"⟩)] "b1"
      ⟨some ⟨false⟩, "terminated"⟩ (by decide) (by decide)).2
     (Or.inr ⟨⟨false⟩, rfl, rfl⟩)⟩

/-- C8 counterexample: a build duration of 0 seconds is under 30 seconds,
yet `should_include_in_response` returns `true` for it when peaks are
high, because the Python guard `if build_duration and build_duration < 30`
treats the falsy value 0 as "no duration given" and skips the short-build
exclusion.  The state is reached by a start followed by one recorded
sample with CPU 90% / 600 MB. -/
theorem c8_should_include_counterexample :
    (0 : ℚ) < 30 ∧
    ResourceMonitor.should_include_in_response true
      (ResourceMonitor.record_sample
        (ResourceMonitor.start_sampling true ResourceMonitor.initState).2 0 90 600)
      (some 0) = true := by
  refine ⟨by decide, by decide⟩

/-- C8 (amended): `stop_sampling` with sampling never (successfully)
started returns no summary; `should_include_in_response` is false whenever
no samples exist, whenever the provided build duration is *nonzero* and
under 30 seconds (Python truthiness exempts 0) regardless of peaks, and
whenever peak CPU is at most 50% and peak memory at most 500 MB. -/
theorem c8_resource_monitor_guards (has_psutil : Bool)
    (m : ResourceMonitor.MonitorState) (build_duration : Option ℚ) :
    (m.sampling_active = false →
      (ResourceMonitor.stop_sampling has_psutil m).1 = none) ∧
    (m.samples = [] →
      ResourceMonitor.should_include_in_response has_psutil m build_duration = false) ∧
    (∀ v, build_duration = some v → v ≠ 0 → v < 30 →
      ResourceMonitor.should_include_in_response has_psutil m build_duration = false) ∧
    (m.peak_cpu ≤ 50 → m.peak_memory_mb ≤ 500 →
      ResourceMonitor.should_include_in_response has_psutil m build_duration = false) := by
  refine ⟨?_, ?_, ?_, ?_⟩
  · intro hact
    unfold ResourceMonitor.stop_sampling
    by_cases hp : has_psutil
    · simp [hp, hact]
    · simp [hp]
  · intro hs
    simp [ResourceMonitor.should_include_in_response, hs]
  · intro v hv hnz hlt
    subst hv
    by_cases hp : has_psutil
    · by_cases hs : m.samples = []
      · simp [ResourceMonitor.should_include_in_response, hs]
      · simp [ResourceMonitor.should_include_in_response, hp, hs, hnz, hlt]
    · simp [ResourceMonitor.should_include_in_response, hp]
  · intro hcpu hmem
    unfold ResourceMonitor.should_include_in_response
    by_cases hguard : (¬ has_psutil = true ∨ m.samples = [])
    · rw [if_pos hguard]
    · rw [if_neg hguard]
      cases build_duration with
      | none => simp [not_lt.mpr hcpu, not_lt.mpr hmem]
      | some v =>
        by_cases hsb : v ≠ 0 ∧ v < 30
        · simp [hsb]
        · simp [hsb, not_lt.mpr hcpu, not_lt.mpr hmem]

/-- C8 witness: the amended guards at concrete states — the freshly
constructed monitor for the stop-without-start and no-samples cases, and a
sampled state with CPU 40% / 100 MB for the short-build and low-peaks
cases. -/
theorem c8_resource_monitor_guards_witness :
    (ResourceMonitor.stop_sampling true ResourceMonitor.initState).1 = none ∧
    ResourceMonitor.should_include_in_response true ResourceMonitor.initState none
      = false ∧
    ResourceMonitor.should_include_in_response true
      (ResourceMonitor.record_sample
        (ResourceMonitor.start_sampling true ResourceMonitor.initState).2 0 40 100)
      (some 5) = false ∧
    ResourceMonitor.should_include_in_response true
      (ResourceMonitor.record_sample
        (ResourceMonitor.start_sampling true ResourceMonitor.initState).2 0 40 100)
      none = false :=
  ⟨(c8_resource_monitor_guards true ResourceMonitor.initState none).1 rfl,
   (c8_resource_monitor_guards true ResourceMonitor.initState none).2.1 rfl,
   (c8_resource_monitor_guards true _ (some 5)).2.2.1 5 rfl (by decide) (by decide),
   (c8_resource_monitor_guards true _ none).2.2.2 (by decide) (by decide)⟩

unseal Rat.add Rat.mul Rat.inv Rat.sub in
/-- C3 counterexample: with predicted duration 100, start time 0, a parsed
progress of 50% (so 0 < p ≤ 100) and the status query arriving at time 40,
`calculate_eta` returns 40 + 100·(50/100) = 90, not the claimed
start_time + 100·(50/100) = 50: the code anchors the progress-adjusted ETA
at the query time, not at the session start time. -/
theorem c3_calculate_eta_counterexample :
    BuildSession.get_progress_percentage (some "[50%]") = some 50 ∧
    BuildSession.calculate_eta (some 100) 0 (some "[50%]") 40 = some 90 ∧
    BuildSession.calculate_eta (some 100) 0 (some "[50%]") 40 ≠
      some ((0 : ℚ) + 100 * ((100 - 50) / 100)) := by
  refine ⟨by decide, by decide, by decide⟩

/-- C3 (amended): for a session with a non-`None` predicted duration, when
the recent output yields a parsable bracketed progress percentage `p` with
`0 < p ≤ 100`, the recomputed ETA equals
current_time + predicted_duration·((100 − p)/100) — anchored at the time
of the status query, not at start_time; when no progress percentage can be
parsed, the ETA equals start_time + predicted_duration. -/
theorem c3_calculate_eta (pd start_time current_time : ℚ)
    (progress_field : Option String) :
    (∀ p : ℚ, BuildSession.get_progress_percentage progress_field = some p →
      0 < p → p ≤ 100 →
      BuildSession.calculate_eta (some pd) start_time progress_field current_time =
        some (current_time + pd * ((100 - p) / 100))) ∧
    (BuildSession.get_progress_percentage progress_field = none →
      BuildSession.calculate_eta (some pd) start_time progress_field current_time =
        some (start_time + pd)) := by
  constructor
  · intro p hp hpos _
    unfold BuildSession.calculate_eta
    rw [hp]
    simp [if_pos hpos]
  · intro hp
    unfold BuildSession.calculate_eta
    rw [hp]

/-- C3 witness: the amended statement at predicted duration 100, start
time 0, query time 40, with progress `"[50%]"` in the progress branch and
`"compiling"` (no bracketed percentage) in the no-progress branch. -/
theorem c3_calculate_eta_witness :
    BuildSession.calculate_eta (some 100) 0 (some "[50%]") 40 =
      some ((40 : ℚ) + 100 * ((100 - 50) / 100)) ∧
    BuildSession.calculate_eta (some 100) 0 (some "compiling") 40 =
      some ((0 : ℚ) + 100) :=
  ⟨(c3_calculate_eta 100 0 40 (some "[50%]")).1 50 (by decide) (by decide) (by decide),
   (c3_calculate_eta 100 0 40 (some "compiling")).2 (by decide)⟩

/-- The tracker state after recording exactly five build completions with
`success=True`, `duration=10`, `warning_count=0`, no predicted duration
and no resource usage for the target list `["x"]` (the claimed scenario of
the health-score round-trip). -/
def c2_build_metrics : List (String × List HealthScoreTracker.MetricRecord) :=
  (List.range 5).foldl
    (fun bm i => HealthScoreTracker.record_build_completion_map bm ["x"] true 10
      none 0 none (i : ℚ))
    []

unseal Rat.add Rat.mul Rat.inv Rat.sub in
/-- C2 counterexample: after five perfect recorded builds the health score
is not 100 — with exactly five equal nonzero durations the performance
trend has no "older" window, no prediction accuracies exceed 0.8, so the
performance sub-score is the neutral 75 and the resource sub-score the
neutral 80, giving int(100·0.4 + 75·0.3 + 100·0.2 + 80·0.1) = int(90.5). -/
theorem c2_health_score_counterexample :
    HealthScoreTracker.calculate_health_score c2_build_metrics ["x"] ≠ some 100 := by
  decide

unseal Rat.add Rat.mul Rat.inv Rat.sub in
/-- C2 (amended): after recording exactly five build-completion records
with `success=True`, `duration=10`, `warning_count=0`, no predicted
duration and no resource usage for the same target list,
`calculate_health_score` for that target list returns 90 (sub-scores:
success 100, performance 75, warnings 100, resources 80; truncated
weighted sum 90.5 → 90). -/
theorem c2_health_score_is_90 :
    HealthScoreTracker.calculate_health_score c2_build_metrics ["x"] = some 90 := by
  decide

lemma char_eq_of_toNat_eq {a b : Char} (h : a.toNat = b.toNat) : a = b :=
  Char.ext (UInt32.ext h)

lemma strLtB_asymm : ∀ a b, strLtB a b = true → strLtB b a = false := by
  intro a
  induction a with
  | nil =>
    intro b h
    cases b with
    | nil => simp [strLtB] at h
    | cons y ys => simp [strLtB]
  | cons x xs ih =>
    intro b h
    cases b with
    | nil => simp [strLtB] at h
    | cons y ys =>
      simp only [strLtB] at h ⊢
      by_cases h1 : x.toNat < y.toNat
      · rw [if_neg (by omega), if_pos h1]
      · by_cases h2 : y.toNat < x.toNat
        · rw [if_neg h1, if_pos h2] at h
          exact absurd h (by simp)
        · rw [if_neg h1, if_neg h2] at h
          rw [if_neg h2, if_neg h1]
          exact ih ys h

lemma strLtB_eq_of_not_lt : ∀ a b, strLtB a b = false → strLtB b a = false → a = b := by
  intro a
  induction a with
  | nil =>
    intro b h1 h2
    cases b with
    | nil => rfl
    | cons y ys => simp [strLtB] at h1
  | cons x xs ih =>
    intro b h1 h2
    cases b with
    | nil => simp [strLtB] at h2
    | cons y ys =>
      simp only [strLtB] at h1 h2
      by_cases hxy : x.toNat < y.toNat
      · rw [if_pos hxy] at h1
        exact absurd h1 (by simp)
      · by_cases hyx : y.toNat < x.toNat
        · rw [if_pos hyx] at h2
          exact absurd h2 (by simp)
        · rw [if_neg hxy, if_neg hyx] at h1
          rw [if_neg hyx, if_neg hxy] at h2
          have hc : x = y := char_eq_of_toNat_eq (by omega)
          rw [hc, ih ys h1 h2]

lemma strLtB_trans : ∀ a b c, strLtB a b = true → strLtB b c = true →
    strLtB a c = true := by
  intro a
  induction a with
  | nil =>
    intro b c h1 h2
    cases b with
    | nil => simp [strLtB] at h1
    | cons y ys =>
      cases c with
      | nil => simp [strLtB] at h2
      | cons z zs => simp [strLtB]
  | cons x xs ih =>
    intro b c h1 h2
    cases b with
    | nil => simp [strLtB] at h1
    | cons y ys =>
      cases c with
      | nil => simp [strLtB] at h2
      | cons z zs =>
        simp only [strLtB] at h1 h2 ⊢
        by_cases hxy : x.toNat < y.toNat
        · by_cases hyz : y.toNat < z.toNat
          · rw [if_pos (by omega)]
          · by_cases hzy : z.toNat < y.toNat
            · rw [if_neg hyz, if_pos hzy] at h2
              exact absurd h2 (by simp)
            · rw [if_pos (by omega)]
        · by_cases hyx : y.toNat < x.toNat
          · rw [if_neg hxy, if_pos hyx] at h1
            exact absurd h1 (by simp)
          · rw [if_neg hxy, if_neg hyx] at h1
            by_cases hyz : y.toNat < z.toNat
            · rw [if_pos (by omega)]
            · by_cases hzy : z.toNat < y.toNat
              · rw [if_neg hyz, if_pos hzy] at h2
                exact absurd h2 (by simp)
              · rw [if_neg hyz, if_neg hzy] at h2
                rw [if_neg (by omega), if_neg (by omega)]
                exact ih ys zs h1 h2

instance str_le_total : IsTotal String str_le :=
  ⟨fun s t => by
    unfold str_le strLeB
    by_cases h : strLtB t.data s.data = true
    · right
      simp [strLtB_asymm t.data s.data h]
    · left
      simp [Bool.not_eq_true] at h
      simp [h]⟩

instance str_le_trans : IsTrans String str_le :=
  ⟨fun a b c hab hbc => by
    unfold str_le strLeB at hab hbc ⊢
    simp only [Bool.not_eq_true'] at hab hbc ⊢
    by_cases hca : strLtB c.data a.data = true
    · exfalso
      cases hbc2 : strLtB b.data c.data with
      | true =>
        have htr := strLtB_trans b.data c.data a.data hbc2 hca
        rw [htr] at hab
        exact absurd hab (by simp)
      | false =>
        have heq : b.data = c.data := strLtB_eq_of_not_lt b.data c.data hbc2 hbc
        rw [← heq] at hca
        rw [hca] at hab
        exact absurd hab (by simp)
    · simpa [Bool.not_eq_true] using hca⟩

instance str_le_antisymm : IsAntisymm String str_le :=
  ⟨fun a b hab hba => by
    unfold str_le strLeB at hab hba
    simp only [Bool.not_eq_true'] at hab hba
    have hdata : a.data = b.data := strLtB_eq_of_not_lt a.data b.data hba hab
    cases a
    cases b
    exact congrArg String.mk hdata⟩

lemma pySorted_eq_of_perm {l1 l2 : List String} (h : l1.Perm l2) :
    pySorted l1 = pySorted l2 :=
  List.eq_of_perm_of_sorted
    ((List.perm_insertionSort str_le l1).trans
      (h.trans (List.perm_insertionSort str_le l2).symm))
    (List.sorted_insertionSort str_le l1)
    (List.sorted_insertionSort str_le l2)

/-- C5: for every pair of target lists equal up to reordering, the derived
target key is identical for the history predictor, the health scorer and
the change tracker. -/
theorem c5_target_keys_permutation_invariant (l1 l2 : List String)
    (h : l1.Perm l2) :
    BuildHistoryManager.get_target_key l1 = BuildHistoryManager.get_target_key l2 ∧
    HealthScoreTracker.get_target_key l1 = HealthScoreTracker.get_target_key l2 ∧
    IncrementalBuildTracker.get_target_key l1 =
      IncrementalBuildTracker.get_target_key l2 := by
  have hsort : pySorted l1 = pySorted l2 := pySorted_eq_of_perm h
  have hnil : (l1 = []) ↔ (l2 = []) := by
    rw [← List.length_eq_zero, ← List.length_eq_zero, h.length_eq]
  refine ⟨?_, ?_, ?_⟩
  · unfold BuildHistoryManager.get_target_key
    by_cases h1 : l1 = []
    · rw [if_pos h1, if_pos (hnil.mp h1)]
    · rw [if_neg h1, if_neg (fun h2 => h1 (hnil.mpr h2)), hsort]
  · unfold HealthScoreTracker.get_target_key
    by_cases h1 : l1 = []
    · rw [if_pos h1, if_pos (hnil.mp h1)]
    · rw [if_neg h1, if_neg (fun h2 => h1 (hnil.mpr h2)), hsort]
  · unfold IncrementalBuildTracker.get_target_key
    by_cases h1 : l1 = []
    · rw [if_pos h1, if_pos (hnil.mp h1)]
    · rw [if_neg h1, if_neg (fun h2 => h1 (hnil.mpr h2)), hsort]

/-- C5 witness: the reordered target lists `["pkg_b", "a/fast"]` and
`["a/fast", "pkg_b"]` receive identical keys in all three components. -/
theorem c5_target_keys_witness :
    BuildHistoryManager.get_target_key ["pkg_b", "a/fast"] =
      BuildHistoryManager.get_target_key ["a/fast", "pkg_b"] ∧
    HealthScoreTracker.get_target_key ["pkg_b", "a/fast"] =
      HealthScoreTracker.get_target_key ["a/fast", "pkg_b"] ∧
    IncrementalBuildTracker.get_target_key ["pkg_b", "a/fast"] =
      IncrementalBuildTracker.get_target_key ["a/fast", "pkg_b"] :=
  c5_target_keys_permutation_invariant ["pkg_b", "a/fast"] ["a/fast", "pkg_b"]
    (by decide)

instance conf_ge_total : IsTotal FixSuggestionsDatabase.Suggestion
    FixSuggestionsDatabase.conf_ge :=
  ⟨fun a b => le_total b.confidence a.confidence⟩

instance conf_ge_transitive : IsTrans FixSuggestionsDatabase.Suggestion
    FixSuggestionsDatabase.conf_ge :=
  ⟨fun _ _ _ h1 h2 => le_trans h2 h1⟩

lemma calculate_confidence_le_100 (regex_search : String → String → Bool)
    (error_message file_path : String)
    (pattern_data : FixSuggestionsDatabase.FixPattern) :
    FixSuggestionsDatabase.calculate_confidence regex_search error_message
      file_path pattern_data ≤ 100 := by
  unfold FixSuggestionsDatabase.calculate_confidence
  split
  · norm_num
  · exact max_le (by norm_num) (min_le_left _ _)

lemma calculate_confidence_matched (regex_search : String → String → Bool)
    (error_message file_path : String)
    (pattern_data : FixSuggestionsDatabase.FixPattern)
    (h : 60 ≤ FixSuggestionsDatabase.calculate_confidence regex_search
      error_message file_path pattern_data) :
    ∃ regex ∈ pattern_data.regex_patterns, regex_search regex error_message = true := by
  unfold FixSuggestionsDatabase.calculate_confidence at h
  split at h
  · exact absurd h (by norm_num)
  · rename_i h0
    exact List.countP_pos_iff.mp (Nat.pos_of_ne_zero h0)

/-- C7: for every regex oracle, catalog state, error message and file
path, `get_fix_suggestions` returns at most 3 suggestions, sorted in
non-increasing confidence order; every returned suggestion has confidence
in [60, 100] and stems from a catalog pattern at least one of whose
regexes matches the error message (so a pattern with zero matches never
appears). -/
theorem c7_get_fix_suggestions_shape (regex_search : String → String → Bool)
    (patterns : Option (List (String × FixSuggestionsDatabase.FixPattern)))
    (error_message file_path error_category : String) :
    (FixSuggestionsDatabase.get_fix_suggestions regex_search patterns
      error_message file_path error_category).length ≤ 3 ∧
    List.Sorted FixSuggestionsDatabase.conf_ge
      (FixSuggestionsDatabase.get_fix_suggestions regex_search patterns
        error_message file_path error_category) ∧
    ∀ s ∈ FixSuggestionsDatabase.get_fix_suggestions regex_search patterns
        error_message file_path error_category,
      60 ≤ s.confidence ∧ s.confidence ≤ 100 ∧
      ∃ pr ∈ patterns.getD [], pr.1 = s.pattern ∧
        ∃ regex ∈ pr.2.regex_patterns, regex_search regex error_message = true := by
  cases patterns with
  | none =>
    refine ⟨by simp [FixSuggestionsDatabase.get_fix_suggestions], ?_, ?_⟩
    · simp [FixSuggestionsDatabase.get_fix_suggestions]
    · intro s hs
      simp [FixSuggestionsDatabase.get_fix_suggestions] at hs
  | some pats =>
    unfold FixSuggestionsDatabase.get_fix_suggestions
    refine ⟨List.length_take_le 3 _, ?_, ?_⟩
    · exact List.Pairwise.sublist (List.take_sublist 3 _)
        (List.sorted_insertionSort FixSuggestionsDatabase.conf_ge _)
    · intro s hs
      have hs1 : s ∈ List.insertionSort FixSuggestionsDatabase.conf_ge _ :=
        (List.take_sublist 3 _).subset hs
      have hs2 := ((List.perm_insertionSort
        FixSuggestionsDatabase.conf_ge _).mem_iff).mp hs1
      obtain ⟨pr, hpr, hconf⟩ := List.mem_filterMap.mp hs2
      by_cases h60 : 60 ≤ FixSuggestionsDatabase.calculate_confidence regex_search
          error_message file_path pr.2
      · rw [if_pos h60] at hconf
        obtain rfl := Option.some.inj hconf
        exact ⟨h60, calculate_confidence_le_100 _ _ _ _, pr, hpr, rfl,
          calculate_confidence_matched regex_search error_message file_path pr.2 h60⟩
      · rw [if_neg h60] at hconf
        exact absurd hconf (by simp)

/-- A concrete one-entry catalog for exercising `get_fix_suggestions`:
base confidence 95, one regex, applicable to all systems. -/
def c7_pattern : FixSuggestionsDatabase.FixPattern :=
  { regex_patterns := ["x"], suggested_fix := "fix", fix_commands := ["c"],
    fix_type := "quick", confidence := 95, applicable_systems := ["all"] }

/-- The suggestion the catalog above produces for the error `"boom"`
under the always-matching oracle: 95·(1/1) plus the +2 broad-OS bonus. -/
def c7_suggestion : FixSuggestionsDatabase.Suggestion :=
  { pattern := "p", suggested_fix := "fix", fix_commands := ["c"],
    fix_type := "quick", confidence := 97, error_category := none }

unseal Rat.add Rat.mul Rat.inv Rat.sub in
/-- C7 witness: the suggestion-shape properties instantiated on the
concrete catalog, the always-matching oracle and the error `"boom"`, at
the concrete returned suggestion. -/
theorem c7_get_fix_suggestions_witness :
    60 ≤ c7_suggestion.confidence ∧ c7_suggestion.confidence ≤ 100 ∧
    ∃ pr ∈ (some [("p", c7_pattern)] :
        Option (List (String × FixSuggestionsDatabase.FixPattern))).getD [],
      pr.1 = c7_suggestion.pattern ∧
      ∃ regex ∈ pr.2.regex_patterns, (fun _ _ => true : String → String → Bool)
        regex "boom" = true :=
  (c7_get_fix_suggestions_shape (fun _ _ => true) (some [("p", c7_pattern)])
    "boom" "" "").2.2 c7_suggestion (by decide)

lemma listMin_le : ∀ (l : List ℚ), ∀ x ∈ l, listMin l ≤ x := by
  intro l
  induction l with
  | nil => intro x hx; simp at hx
  | cons d ds ih =>
    intro x hx
    cases ds with
    | nil =>
      simp at hx
      simp [listMin, hx]
    | cons e es =>
      rcases List.mem_cons.mp hx with rfl | hx2
      · exact min_le_left _ _
      · exact le_trans (min_le_right _ _) (ih x hx2)

lemma le_listMax : ∀ (l : List ℚ), ∀ x ∈ l, x ≤ listMax l := by
  intro l
  induction l with
  | nil => intro x hx; simp at hx
  | cons d ds ih =>
    intro x hx
    cases ds with
    | nil =>
      simp at hx
      simp [listMax, hx]
    | cons e es =>
      rcases List.mem_cons.mp hx with rfl | hx2
      · exact le_max_left _ _
      · exact le_trans (ih x hx2) (le_max_right _ _)

lemma listMin_nonneg : ∀ (l : List ℚ), (∀ x ∈ l, 0 ≤ x) → 0 ≤ listMin l := by
  intro l
  induction l with
  | nil => intro _; simp [listMin]
  | cons d ds ih =>
    intro h
    cases ds with
    | nil => simpa [listMin] using h d (by simp)
    | cons e es =>
      exact le_min (h d (by simp))
        (ih (fun x hx => h x (List.mem_cons_of_mem d hx)))

lemma listMax_nonneg : ∀ (l : List ℚ), (∀ x ∈ l, 0 ≤ x) → 0 ≤ listMax l := by
  intro l
  induction l with
  | nil => intro _; simp [listMax]
  | cons d ds ih =>
    intro h
    cases ds with
    | nil => simpa [listMax] using h d (by simp)
    | cons e es =>
      exact le_trans (h d (by simp)) (le_max_left _ _)

lemma sum_zipWith_le {hi : ℚ} : ∀ (ds ws : List ℚ), ds.length = ws.length →
    (∀ w ∈ ws, 0 ≤ w) → (∀ d ∈ ds, d ≤ hi) →
    (List.zipWith (fun d w => d * w) ds ws).sum ≤ hi * ws.sum := by
  intro ds
  induction ds with
  | nil =>
    intro ws hlen _ _
    have : ws = [] := List.eq_nil_of_length_eq_zero hlen.symm
    simp [this]
  | cons d ds ih =>
    intro ws hlen hw hd
    cases ws with
    | nil => simp at hlen
    | cons w ws2 =>
      simp only [List.zipWith_cons_cons, List.sum_cons, List.length_cons] at hlen ⊢
      rw [mul_add]
      exact add_le_add
        (mul_le_mul_of_nonneg_right (hd d (by simp)) (hw w (by simp)))
        (ih ws2 (by omega) (fun x hx => hw x (List.mem_cons_of_mem w hx))
          (fun x hx => hd x (List.mem_cons_of_mem d hx)))

lemma le_sum_zipWith {lo : ℚ} : ∀ (ds ws : List ℚ), ds.length = ws.length →
    (∀ w ∈ ws, 0 ≤ w) → (∀ d ∈ ds, lo ≤ d) →
    lo * ws.sum ≤ (List.zipWith (fun d w => d * w) ds ws).sum := by
  intro ds
  induction ds with
  | nil =>
    intro ws hlen _ _
    have : ws = [] := List.eq_nil_of_length_eq_zero hlen.symm
    simp [this]
  | cons d ds ih =>
    intro ws hlen hw hd
    cases ws with
    | nil => simp at hlen
    | cons w ws2 =>
      simp only [List.zipWith_cons_cons, List.sum_cons, List.length_cons] at hlen ⊢
      rw [mul_add]
      exact add_le_add
        (mul_le_mul_of_nonneg_right (hd d (by simp)) (hw w (by simp)))
        (ih ws2 (by omega) (fun x hx => hw x (List.mem_cons_of_mem w hx))
          (fun x hx => hd x (List.mem_cons_of_mem d hx)))

lemma prediction_weights_length (n : Nat) :
    (BuildHistoryManager.prediction_weights n).length = n := by
  unfold BuildHistoryManager.prediction_weights
  rw [List.length_map, List.length_range]

lemma prediction_weights_pos (n : Nat) :
    ∀ w ∈ BuildHistoryManager.prediction_weights n, 0 < w := by
  intro w hw
  obtain ⟨i, _, rfl⟩ := List.mem_map.mp hw
  have h0 : (0 : ℚ) ≤ (i : ℚ) := Nat.cast_nonneg i
  nlinarith

lemma prediction_weights_sum_pos {n : Nat} (h : 0 < n) :
    0 < (BuildHistoryManager.prediction_weights n).sum := by
  apply List.sum_pos
  · exact prediction_weights_pos n
  · intro he
    have := prediction_weights_length n
    rw [he] at this
    simp at this
    omega

lemma weighted_predict_bounds {lo hi : ℚ} (durations : List ℚ)
    (hne : durations ≠ []) (hlo : ∀ d ∈ durations, lo ≤ d)
    (hhi : ∀ d ∈ durations, d ≤ hi) :
    lo ≤ BuildHistoryManager.weighted_predict durations ∧
    BuildHistoryManager.weighted_predict durations ≤ hi := by
  unfold BuildHistoryManager.weighted_predict
  have hwpos : 0 < (BuildHistoryManager.prediction_weights durations.length).sum :=
    prediction_weights_sum_pos (by
      cases durations with
      | nil => exact absurd rfl hne
      | cons d ds => simp)
  have hwnn : ∀ w ∈ BuildHistoryManager.prediction_weights durations.length, 0 ≤ w :=
    fun w hw => le_of_lt (prediction_weights_pos _ w hw)
  have hlen : durations.length =
      (BuildHistoryManager.prediction_weights durations.length).length :=
    (prediction_weights_length _).symm
  constructor
  · rw [le_div_iff₀ hwpos]
    exact le_sum_zipWith durations _ hlen hwnn hlo
  · rw [div_le_iff₀ hwpos]
    exact sum_zipWith_le durations _ hlen hwnn hhi

lemma remove_outliers_subset (durations : List ℚ) (threshold : ℚ) :
    ∀ x ∈ BuildHistoryManager.remove_outliers durations threshold, x ∈ durations := by
  intro x hx
  unfold BuildHistoryManager.remove_outliers at hx
  split at hx
  · exact hx
  · simp only [] at hx
    split at hx
    · exact hx
    · split at hx
      · exact hx
      · exact (List.mem_filter.mp hx).1

lemma remove_outliers_length (durations : List ℚ) (threshold : ℚ)
    (h : 3 ≤ durations.length) :
    3 ≤ (BuildHistoryManager.remove_outliers durations threshold).length := by
  unfold BuildHistoryManager.remove_outliers
  split
  · exact h
  · simp only []
    split
    · exact h
    · split
      · exact h
      · rename_i h3
        omega

lemma calculate_trend_factor_bounds (durations : List ℚ) :
    1 / 2 ≤ BuildHistoryManager.calculate_trend_factor durations ∧
    BuildHistoryManager.calculate_trend_factor durations ≤ 2 := by
  unfold BuildHistoryManager.calculate_trend_factor
  split
  · norm_num
  · simp only []
    split
    · norm_num
    · exact ⟨le_max_left _ _, max_le (by norm_num) (min_le_left _ _)⟩

lemma selected_durations_subset (build_history : List BuildHistoryManager.BuildRecord) :
    ∀ x ∈ BuildHistoryManager.selected_durations build_history,
      x ∈ (lastN 10 build_history).map (fun b => b.duration) := by
  intro x hx
  unfold BuildHistoryManager.selected_durations at hx
  split at hx
  · exact remove_outliers_subset _ _ x hx
  · exact hx

lemma selected_durations_length (build_history : List BuildHistoryManager.BuildRecord)
    (h : 3 ≤ build_history.length) :
    3 ≤ (BuildHistoryManager.selected_durations build_history).length := by
  have hlen : 3 ≤ ((lastN 10 build_history).map (fun b => b.duration)).length := by
    rw [List.length_map]
    unfold lastN
    rw [List.length_drop]
    omega
  unfold BuildHistoryManager.selected_durations
  split
  · exact remove_outliers_length _ _ hlen
  · exact hlen

lemma selected_durations_ne_nil (build_history : List BuildHistoryManager.BuildRecord)
    (h : 3 ≤ build_history.length) :
    BuildHistoryManager.selected_durations build_history ≠ [] := by
  intro he
  have hl := selected_durations_length build_history h
  rw [he] at hl
  simp at hl

lemma predict_from_history_spec (build_history : List BuildHistoryManager.BuildRecord)
    (hpos : ∀ r ∈ build_history, 0 ≤ r.duration) :
    (BuildHistoryManager.predict_from_history build_history = none ↔
      build_history.length < 3) ∧
    (∀ p, BuildHistoryManager.predict_from_history build_history = some p →
      listMin ((lastN 10 build_history).map (fun b => b.duration)) * (2 / 5) ≤ p ∧
      p ≤ listMax ((lastN 10 build_history).map (fun b => b.duration)) * (5 / 2)) := by
  by_cases h3 : build_history.length < 3
  · constructor
    · simp [BuildHistoryManager.predict_from_history, h3]
    · intro p hp
      simp [BuildHistoryManager.predict_from_history, h3] at hp
  · have h3' : 3 ≤ build_history.length := by omega
    have hD0pos : ∀ d ∈ (lastN 10 build_history).map (fun b => b.duration), 0 ≤ d := by
      intro d hd
      obtain ⟨r, hr, rfl⟩ := List.mem_map.mp hd
      exact hpos r (List.drop_subset _ _ hr)
    have hmin0 : 0 ≤ listMin ((lastN 10 build_history).map (fun b => b.duration)) :=
      listMin_nonneg _ hD0pos
    have hmax0 : 0 ≤ listMax ((lastN 10 build_history).map (fun b => b.duration)) :=
      listMax_nonneg _ hD0pos
    have hsub := selected_durations_subset build_history
    have hne := selected_durations_ne_nil build_history h3'
    have hlo : ∀ d ∈ BuildHistoryManager.selected_durations build_history,
        listMin ((lastN 10 build_history).map (fun b => b.duration)) ≤ d :=
      fun d hd => listMin_le _ d (hsub d hd)
    have hhi : ∀ d ∈ BuildHistoryManager.selected_durations build_history,
        d ≤ listMax ((lastN 10 build_history).map (fun b => b.duration)) :=
      fun d hd => le_listMax _ d (hsub d hd)
    obtain ⟨hwlo, hwhi⟩ := weighted_predict_bounds
      (BuildHistoryManager.selected_durations build_history) hne hlo hhi
    have hw0 : 0 ≤ BuildHistoryManager.weighted_predict
        (BuildHistoryManager.selected_durations build_history) :=
      le_trans hmin0 hwlo
    obtain ⟨htf1, htf2⟩ := calculate_trend_factor_bounds
      (BuildHistoryManager.selected_durations build_history)
    have hnot : ¬ (BuildHistoryManager.selected_durations build_history).length < 3 := by
      have := selected_durations_length build_history h3'
      omega
    constructor
    · unfold BuildHistoryManager.predict_from_history
      rw [if_neg h3, if_neg hnot]
      constructor
      · intro hcontra
        exfalso
        split at hcontra <;> exact absurd hcontra (by simp)
      · intro hc
        exact absurd hc h3
    · intro p hp
      unfold BuildHistoryManager.predict_from_history at hp
      rw [if_neg h3, if_neg hnot] at hp
      by_cases h5 : 5 ≤ (BuildHistoryManager.selected_durations build_history).length
      · rw [if_pos h5] at hp
        obtain rfl := Option.some.inj hp
        constructor
        · calc listMin ((lastN 10 build_history).map (fun b => b.duration)) * (2 / 5)
              ≤ listMin ((lastN 10 build_history).map (fun b => b.duration)) * (1 / 2) :=
                mul_le_mul_of_nonneg_left (by norm_num) hmin0
          _ ≤ BuildHistoryManager.weighted_predict
                (BuildHistoryManager.selected_durations build_history) * (1 / 2) :=
                mul_le_mul_of_nonneg_right hwlo (by norm_num)
          _ ≤ BuildHistoryManager.weighted_predict
                (BuildHistoryManager.selected_durations build_history) *
                BuildHistoryManager.calculate_trend_factor
                  (BuildHistoryManager.selected_durations build_history) :=
                mul_le_mul_of_nonneg_left htf1 hw0
        · calc BuildHistoryManager.weighted_predict
                (BuildHistoryManager.selected_durations build_history) *
                BuildHistoryManager.calculate_trend_factor
                  (BuildHistoryManager.selected_durations build_history)
              ≤ BuildHistoryManager.weighted_predict
                  (BuildHistoryManager.selected_durations build_history) * 2 :=
                mul_le_mul_of_nonneg_left htf2 hw0
          _ ≤ listMax ((lastN 10 build_history).map (fun b => b.duration)) * 2 :=
                mul_le_mul_of_nonneg_right hwhi (by norm_num)
          _ ≤ listMax ((lastN 10 build_history).map (fun b => b.duration)) * (5 / 2) :=
                mul_le_mul_of_nonneg_left (by norm_num) hmax0
      · rw [if_neg h5] at hp
        obtain rfl := Option.some.inj hp
        constructor
        · calc listMin ((lastN 10 build_history).map (fun b => b.duration)) * (2 / 5)
              ≤ listMin ((lastN 10 build_history).map (fun b => b.duration)) * 1 :=
                mul_le_mul_of_nonneg_left (by norm_num) hmin0
          _ = listMin ((lastN 10 build_history).map (fun b => b.duration)) := mul_one _
          _ ≤ BuildHistoryManager.weighted_predict
                (BuildHistoryManager.selected_durations build_history) := hwlo
        · calc BuildHistoryManager.weighted_predict
                (BuildHistoryManager.selected_durations build_history)
              ≤ listMax ((lastN 10 build_history).map (fun b => b.duration)) := hwhi
          _ = listMax ((lastN 10 build_history).map (fun b => b.duration)) * 1 :=
                (mul_one _).symm
          _ ≤ listMax ((lastN 10 build_history).map (fun b => b.duration)) * (5 / 2) :=
                mul_le_mul_of_nonneg_left (by norm_num) hmax0

/-- C1: for every target list and stored history map with nonnegative
recorded durations, `get_predicted_duration` returns `None` iff fewer than
3 records exist for the derived target key; when it returns a prediction,
the prediction lies within [min(recent durations)·0.4, max(recent
durations)·2.5], where the recent durations are those of the last 10
records for that key.  Determinism is inherent: the embedded function is a
pure function of the stored record sequence. -/
theorem c1_get_predicted_duration_envelope
    (builds : List (String × List BuildHistoryManager.BuildRecord))
    (targets : List String)
    (hpos : ∀ r ∈ BuildHistoryManager.records_for builds targets, 0 ≤ r.duration) :
    (BuildHistoryManager.get_predicted_duration builds targets = none ↔
      (BuildHistoryManager.records_for builds targets).length < 3) ∧
    (∀ p, BuildHistoryManager.get_predicted_duration builds targets = some p →
      listMin ((lastN 10 (BuildHistoryManager.records_for builds targets)).map
        (fun b => b.duration)) * (2 / 5) ≤ p ∧
      p ≤ listMax ((lastN 10 (BuildHistoryManager.records_for builds targets)).map
        (fun b => b.duration)) * (5 / 2)) := by
  cases hlook : builds.lookup (BuildHistoryManager.get_target_key targets) with
  | none =>
    have hg : BuildHistoryManager.get_predicted_duration builds targets = none := by
      unfold BuildHistoryManager.get_predicted_duration
      rw [hlook]
    have hr : BuildHistoryManager.records_for builds targets = [] := by
      unfold BuildHistoryManager.records_for
      rw [hlook]
      rfl
    rw [hg, hr]
    refine ⟨by simp, ?_⟩
    intro p hp
    exact absurd hp (by simp)
  | some build_history =>
    have hg : BuildHistoryManager.get_predicted_duration builds targets =
        BuildHistoryManager.predict_from_history build_history := by
      unfold BuildHistoryManager.get_predicted_duration
      rw [hlook]
    have hr : BuildHistoryManager.records_for builds targets = build_history := by
      unfold BuildHistoryManager.records_for
      rw [hlook]
      rfl
    rw [hg, hr]
    rw [hr] at hpos
    exact predict_from_history_spec build_history hpos

/-- A concrete three-record history for the target list `["t"]`
(stored under its derived key `"target_t"`). -/
def c1_builds : List (String × List BuildHistoryManager.BuildRecord) :=
  [("target_t",
    [{ duration := 10, timestamp := 0, targets := ["t"], success := true },
     { duration := 20, timestamp := 1, targets := ["t"], success := true },
     { duration := 30, timestamp := 2, targets := ["t"], success := true }])]

/-- C1 witness: the envelope theorem instantiated at the concrete
three-record history, with the nonnegativity hypothesis discharged by
evaluation. -/
theorem c1_get_predicted_duration_witness :
    (∀ r ∈ BuildHistoryManager.records_for c1_builds ["t"], 0 ≤ r.duration) ∧
    ((BuildHistoryManager.get_predicted_duration c1_builds ["t"] = none ↔
      (BuildHistoryManager.records_for c1_builds ["t"]).length < 3) ∧
     (∀ p, BuildHistoryManager.get_predicted_duration c1_builds ["t"] = some p →
       listMin ((lastN 10 (BuildHistoryManager.records_for c1_builds ["t"])).map
         (fun b => b.duration)) * (2 / 5) ≤ p ∧
       p ≤ listMax ((lastN 10 (BuildHistoryManager.records_for c1_builds ["t"])).map
         (fun b => b.duration)) * (5 / 2))) :=
  ⟨by decide, c1_get_predicted_duration_envelope c1_builds ["t"] (by decide)⟩
